import Mathlib

/-!
Shallow embedding of `src/lib/formifier/formifier.svelte.ts` (svelte-formifier).

The mutable `Form` class is modelled by explicit state passing: the reactive
`fields` object becomes an association list `FormFields` (JS object keys
iterate in insertion order, which is field declaration order), and every
method that mutates `this.fields` becomes a function from the old list to the
new one.  User supplied callbacks (validators, visibility predicates,
listeners) are opaque Lean functions.  JS `null`/`undefined` string values are
modelled with `Option String`; points where JS truthiness or strict
(in)equality of `null` vs `undefined` matter are modelled by dedicated
helper functions.
-/

namespace Formifier

/-- `interface ValidationError { name, message }`. -/
structure ValidationError where
  name : String
  message : String
deriving DecidableEq, Repr

/-- `type ValidationResult = ValidationError[] | null`; `none` is JS `null`. -/
abbrev ValidationResult := Option (List ValidationError)

/-- `type ValidationTriggers = 'auto' | 'onblur' | 'onchange' | 'onfocus' | 'oninput' | 'onmount'`. -/
inductive ValidationTrigger where
  | auto
  | onblur
  | onchange
  | onfocus
  | oninput
  | onmount
deriving DecidableEq, BEq, Repr

/-- `interface FormField` of the source: the per-field reactive state. -/
structure FormField where
  isChanged : Bool
  isDirty : Bool
  isHidden : Bool
  isTouched : Bool
  isVisible : Bool
  name : String
  error : Option String
  errors : Option (List ValidationError)
  value : Option String
deriving DecidableEq, Repr

/-- The mutable part of the `Form` class: `fields`, a JS object keyed by field
name, modelled as an association list in declaration order. -/
abbrev FormFields := List (String × FormField)

/-- Result of `ZodSchema.safeParse`: success, or a list of issue messages. -/
inductive ParseOutcome where
  | success
  | failure (messages : List String)

/-- `type ValidatorFormOption = ValidatorFunction | ZodTypeAny`: either a
function validator or an opaque schema exposing `safeParse` on the value. -/
inductive ValidatorFormOption where
  | fn (f : FormField → ValidationResult)
  | schema (s : Option String → ParseOutcome)

/-- `type ValidationFormOption` of the source: trigger list, generic
validator and the per-trigger validator map.  Absent keys are `none`. -/
structure ValidationFormOption where
  triggers : Option (List ValidationTrigger) := none
  validator : Option ValidatorFormOption := none
  onBlur : Option ValidatorFormOption := none
  onChange : Option ValidatorFormOption := none
  onFocus : Option ValidatorFormOption := none
  onInput : Option ValidatorFormOption := none
  onMount : Option ValidatorFormOption := none
  onSubmit : Option ValidatorFormOption := none

/-- `type ListenerFunction = (field: FormField) => void`.  Listeners are
invoked for their side effects outside the modelled state, so their Lean
image is `Unit`. -/
abbrev ListenerFunction := FormField → Unit

/-- The `listeners` sub-object of a field configuration. -/
structure FieldListeners where
  onBlur : Option ListenerFunction := none
  onChange : Option ListenerFunction := none
  onFocus : Option ListenerFunction := none
  onInput : Option ListenerFunction := none

/-- `type VisibilityFunction = (form: Form) => boolean`.  The predicate reads
the form's mutable state, i.e. its fields. -/
abbrev VisibilityFunction := FormFields → Bool

/-- `interface FieldFormOption`: one field's configuration.  `default` is
`Option String` (`none` models the key being absent / `undefined`). -/
structure FieldFormOption where
  default : Option String := none
  listeners : Option FieldListeners := none
  validator : Option ValidatorFormOption := none
  validation : Option ValidationFormOption := none
  visible : Option VisibilityFunction := none

/-- `FormOptions.fields`, an object literal, i.e. an ordered association list
of field configurations.  The `onReset`/`onSubmit` form callbacks live in the
excluded event-adapter layer and touch no field state, so they are omitted. -/
structure FormOptions where
  fields : List (String × FieldFormOption)

/-- JS object property lookup `obj[key]` on an association list
(`none` models `undefined`). -/
def alookup (key : String) : List (String × α) → Option α
  | [] => none
  | kv :: rest => if kv.1 = key then some kv.2 else alookup key rest

/-- In-place mutation of the field object stored under `key`
(`this.fields[key] = f` / mutating the object `this.fields[key]` aliases). -/
def setField (fields : FormFields) (key : String) (f : FormField) : FormFields :=
  fields.map (fun kv => if kv.1 = key then (kv.1, f) else kv)

/-- JS strict inequality `field.value !== options.default` used by
`handleInputEvent`.  `field.value` is `string | null` and `options.default`
is `string | undefined`; `null !== undefined` is `true`, so the comparison is
`false` only when both sides are present and equal strings. -/
def valueNeqDefault (value : Option String) (d : Option String) : Bool :=
  match value, d with
  | some v, some s => v != s
  | _, _ => true

/-- JS truthiness of `field.error : string | null`: `null` and the empty
string are falsy. -/
def truthyStr : Option String → Bool
  | none => false
  | some s => s != ""

/-- `Form.createFormField`: the fresh state of a field
(`value: option.default ?? null`). -/
def createFormField (name : String) (option : FieldFormOption) : FormField :=
  { isChanged := false
    isDirty := false
    isHidden := false
    isTouched := false
    isVisible := true
    error := none
    errors := none
    name := name
    value := option.default }

/-- `Form.validate(field, validator?)`.  Resolution: an explicit `validator`
argument wins; else, if the field's configuration has a `validation` object,
its `validation.validator` (possibly absent) is used; else the field's
top-level `validator`.  A function validator is applied to the field; a
schema validator safe-parses the value and maps every issue message to a
`ValidationError` named after the field.  Then `field.error` is set to the
messages joined by `'|'` when `result` is truthy (any array, even empty) and
to `null` otherwise, and `field.errors` is set to `result`.  Returns the
updated field together with the `ValidationResult`. -/
def validate (opts : FormOptions) (field : FormField)
    (validator : Option ValidatorFormOption) : FormField × ValidationResult :=
  let theValidator : Option ValidatorFormOption :=
    match validator with
    | some v => some v
    | none =>
      match alookup field.name opts.fields with
      | some o =>
        match o.validation with
        | some val => val.validator
        | none => o.validator
      | none => none
  let result : ValidationResult :=
    match theValidator with
    | some (.fn f) => f field
    | some (.schema s) =>
      match s field.value with
      | .success => none
      | .failure msgs =>
        some (msgs.map (fun m => { name := field.name, message := m }))
    | none => none
  let errorStr : Option String :=
    match result with
    | some errs => some (String.intercalate "|" (errs.map (fun e => e.message)))
    | none => none
  ({ field with error := errorStr, errors := result }, result)

/-- One iteration of the `Object.keys(this.fields).forEach` loop of
`Form.updateVisibility`: when the field's configuration declares a `visible`
predicate, evaluate it on the current (partially updated) form state and
store the result and its negation. -/
def visStep (opts : FormOptions) (fs : FormFields) (key : String) : FormFields :=
  match alookup key opts.fields with
  | some o =>
    match o.visible with
    | some pred =>
      match alookup key fs with
      | some f =>
        let b := pred fs
        setField fs key { f with isVisible := b, isHidden := !b }
      | none => fs
    | none => fs
  | none => fs

/-- `Form.updateVisibility`: iterate over the field keys in declaration
order, updating `isVisible`/`isHidden` for each field with a predicate. -/
def updateVisibility (opts : FormOptions) (fields : FormFields) : FormFields :=
  (fields.map Prod.fst).foldl (visStep opts) fields

/-- The per-key body of `Form.createFormFields`: create the fresh field,
then run mount-time validation when `validation.onMount` is configured, or
generic validation when the trigger list contains `'onmount'`. -/
def mountField (opts : FormOptions) (key : String) (o : FieldFormOption) : FormField :=
  let f := createFormField key o
  match o.validation with
  | some val =>
    match val.onMount with
    | some v => (validate opts f (some v)).1
    | none =>
      if (val.triggers.getD []).contains .onmount then (validate opts f none).1
      else f
  | none => f

/-- `Form.createFormFields`: one fresh (and possibly mount-validated) field
per configuration entry, in declaration order.  Each loop iteration only
reads `this.options` and the field it just created, so the loop is a map. -/
def createFormFields (opts : FormOptions) : FormFields :=
  opts.fields.map (fun kv => (kv.1, mountField opts kv.1 kv.2))

/-- The `Form` constructor: build the fields, then run `updateVisibility`. -/
def createForm (opts : FormOptions) : FormFields :=
  updateVisibility opts (createFormFields opts)

/-- Record of a listener invocation (`options.listeners?.onX?.(field)`). -/
inductive ListenerKind where
  | blur
  | change
  | focus
  | input
deriving DecidableEq, Repr

/-- One listener call performed by an event handler. -/
structure ListenerCall where
  fieldName : String
  kind : ListenerKind
deriving DecidableEq, Repr

/-- `Form.handleBlurEvent`: validate with the per-trigger `onBlur` validator
if present, else generic validation when the trigger list contains
`'onblur'`; then invoke the `onBlur` listener.  The handlers receive the
live field object `this.fields[name]`; an unbound name is never passed by
the adapter, so that case leaves the state unchanged. -/
def handleBlurEvent (opts : FormOptions) (fields : FormFields) (name : String) :
    FormFields × List ListenerCall :=
  match alookup name fields, alookup name opts.fields with
  | some field, some o =>
    let field1 :=
      match Option.bind o.validation (fun v => v.onBlur) with
      | some v => (validate opts field (some v)).1
      | none =>
        if ((Option.bind o.validation (fun v => v.triggers)).getD []).contains .onblur
        then (validate opts field none).1
        else field
    (setField fields name field1,
     if (Option.bind o.listeners (fun l => l.onBlur)).isSome
     then [{ fieldName := name, kind := .blur }] else [])
  | _, _ => (fields, [])

/-- `Form.handleChangeEvent`: per-trigger `onChange` validator first; else
generic validation when the trigger list contains `'onchange'`; else, when no
trigger list is configured at all (`!options.validation?.triggers`), validate
anyway; then `updateVisibility`, then the `onChange` listener. -/
def handleChangeEvent (opts : FormOptions) (fields : FormFields) (name : String) :
    FormFields × List ListenerCall :=
  match alookup name fields, alookup name opts.fields with
  | some field, some o =>
    let trig := Option.bind o.validation (fun v => v.triggers)
    let field1 :=
      match Option.bind o.validation (fun v => v.onChange) with
      | some v => (validate opts field (some v)).1
      | none =>
        if (trig.getD []).contains .onchange then (validate opts field none).1
        else if trig.isNone then (validate opts field none).1
        else field
    let fields2 := updateVisibility opts (setField fields name field1)
    (fields2,
     if (Option.bind o.listeners (fun l => l.onChange)).isSome
     then [{ fieldName := name, kind := .change }] else [])
  | _, _ => (fields, [])

/-- `Form.handleFocusEvent`: set `isTouched`, then per-trigger `onFocus`
validator, else generic validation when the trigger list contains
`'onfocus'`; then the `onFocus` listener. -/
def handleFocusEvent (opts : FormOptions) (fields : FormFields) (name : String) :
    FormFields × List ListenerCall :=
  match alookup name fields, alookup name opts.fields with
  | some field, some o =>
    let field0 := { field with isTouched := true }
    let field1 :=
      match Option.bind o.validation (fun v => v.onFocus) with
      | some v => (validate opts field0 (some v)).1
      | none =>
        if ((Option.bind o.validation (fun v => v.triggers)).getD []).contains .onfocus
        then (validate opts field0 none).1
        else field0
    (setField fields name field1,
     if (Option.bind o.listeners (fun l => l.onFocus)).isSome
     then [{ fieldName := name, kind := .focus }] else [])
  | _, _ => (fields, [])

/-- `Form.handleInputEvent`: set `isDirty`, recompute
`isChanged = field.value !== options.default`; per-trigger `onInput`
validator first, else generic validation when the trigger list contains
`'oninput'`, else validate when `field.error` is truthy and no trigger list
is configured; then `updateVisibility`, then the `onInput` listener. -/
def handleInputEvent (opts : FormOptions) (fields : FormFields) (name : String) :
    FormFields × List ListenerCall :=
  match alookup name fields, alookup name opts.fields with
  | some field, some o =>
    let field0 :=
      { field with isDirty := true
                   isChanged := valueNeqDefault field.value o.default }
    let trig := Option.bind o.validation (fun v => v.triggers)
    let field1 :=
      match Option.bind o.validation (fun v => v.onInput) with
      | some v => (validate opts field0 (some v)).1
      | none =>
        if (trig.getD []).contains .oninput then (validate opts field0 none).1
        else if truthyStr field0.error && trig.isNone then (validate opts field0 none).1
        else field0
    let fields2 := updateVisibility opts (setField fields name field1)
    (fields2,
     if (Option.bind o.listeners (fun l => l.onInput)).isSome
     then [{ fieldName := name, kind := .input }] else [])
  | _, _ => (fields, [])

/-- `Form.reset`: every field whose key still has a configuration is replaced
by a fresh `createFormField`, then `updateVisibility` runs. -/
def reset (opts : FormOptions) (fields : FormFields) : FormFields :=
  updateVisibility opts
    (fields.map (fun kv =>
      match alookup kv.1 opts.fields with
      | some o => (kv.1, createFormField kv.1 o)
      | none => kv))

/-- One iteration of the `Object.keys(this.fields).forEach` loop of
`Form.validateForm`: validate with the per-trigger `onSubmit` validator when
configured, else with generic resolution. -/
def submitStep (opts : FormOptions) (fs : FormFields) (key : String) : FormFields :=
  match alookup key opts.fields with
  | some o =>
    match alookup key fs with
    | some f =>
      setField fs key
        (validate opts f (Option.bind o.validation (fun v => v.onSubmit))).1
    | none => fs
  | none => fs

/-- `Form.validateForm`: run the submit validation step on every field. -/
def validateForm (opts : FormOptions) (fields : FormFields) : FormFields :=
  (fields.map Prod.fst).foldl (submitStep opts) fields

/-- The `Form.errors` derived value: every field's `errors` flattened in
field declaration order (`errors` equal to JS `null` contributes nothing, as
does an empty array). -/
def formErrors (fields : FormFields) : List ValidationError :=
  (fields.map (fun kv => kv.2.errors.getD [])).flatten

/-- The `Form.hasErrors` derived value: `this.errors.length > 0`. -/
def hasErrors (fields : FormFields) : Bool :=
  decide ((formErrors fields).length > 0)

/-- A UI event routed into the core by the adapter.  For `input` and
`change` the Svelte value binding writes the new raw value into
`field.value` before the handler runs, modelled by `setValue`. -/
inductive FormEvent where
  | blur (name : String)
  | change (name : String) (value : Option String)
  | focus (name : String)
  | input (name : String) (value : Option String)
  | submit
  | reset

/-- The value binding `bind:value={form.fields.x.value}` writing a raw value
into the named field. -/
def setValue (fields : FormFields) (name : String) (v : Option String) : FormFields :=
  fields.map (fun kv => if kv.1 = name then (kv.1, { kv.2 with value := v }) else kv)

/-- Dispatch of one UI event to the corresponding transition. -/
def runEvent (opts : FormOptions) (fields : FormFields) : FormEvent → FormFields
  | .blur n => (handleBlurEvent opts fields n).1
  | .change n v => (handleChangeEvent opts (setValue fields n v) n).1
  | .focus n => (handleFocusEvent opts fields n).1
  | .input n v => (handleInputEvent opts (setValue fields n v) n).1
  | .submit => validateForm opts fields
  | .reset => reset opts fields

/-- The form state reached from construction by a sequence of UI events. -/
def runEvents (opts : FormOptions) (events : List FormEvent) : FormFields :=
  events.foldl (runEvent opts) (createForm opts)

/-! ### Exception model for validator execution

`Form.validate` runs `theValidator(field)` with no `try`/`catch`, and
`Form.validateForm` runs `validate` inside `Object.keys(...).forEach`.  To
reason about a user validator that throws, the validator is given an
`Except` codomain (`Except.error` is a thrown JS exception).  A throw aborts
`validate` before `field.error`/`field.errors` are assigned and propagates;
inside `forEach` it aborts the remaining iterations and propagates out
of `validateForm`. -/

/-- A user validator function that may throw. -/
abbrev ThrowingValidator := FormField → Except String ValidationResult

/-- The "Validate" and "Set errors" steps of `Form.validate` for a function
validator that may throw: the source has no `try`/`catch`, so an exception
in `theValidator(field)` escapes before the field is updated. -/
def validateE (field : FormField) (v : ThrowingValidator) : Except String FormField :=
  match v field with
  | .error e => .error e
  | .ok result =>
    .ok { field with
          error :=
            match result with
            | some errs => some (String.intercalate "|" (errs.map (fun er => er.message)))
            | none => none
          errors := result }

/-- The `Object.keys(this.fields).forEach` loop of `Form.validateForm`,
with the per-field validator already resolved into `validators`: an
exception thrown by one field's validator propagates and the remaining
fields are not validated. -/
def validateFormEAux (validators : List (String × ThrowingValidator))
    (keys : List String) (fs : FormFields) : Except String FormFields :=
  match keys with
  | [] => .ok fs
  | k :: rest =>
    match alookup k validators, alookup k fs with
    | some v, some f =>
      match validateE f v with
      | .error e => .error e
      | .ok f1 => validateFormEAux validators rest (setField fs k f1)
    | _, _ => validateFormEAux validators rest fs

/-- `Form.validateForm` under the exception model. -/
def validateFormE (validators : List (String × ThrowingValidator))
    (fs : FormFields) : Except String FormFields :=
  validateFormEAux validators (fs.map Prod.fst) fs

/-! ### Concrete configurations used to instantiate the general theorems -/

/-- The README-style required-field validator
`(f) => f.value.length>0 ? null : [{name:'x',message:'required'}]`. -/
def vReq : ValidatorFormOption :=
  .fn (fun f =>
    if (f.value.getD "").length > 0 then none
    else some [{ name := "x", message := "required" }])

/-- A field with no `validation` key, only a top-level `validator`. -/
def oC1 : FieldFormOption := { default := some "", validator := some vReq }

def cfgC1 : FormOptions := { fields := [("x", oC1)] }

/-- Per-trigger `onChange` validator returning message `A`. -/
def vA2 : ValidatorFormOption := .fn (fun _ => some [{ name := "f", message := "A" }])

/-- Generic validator returning message `B`. -/
def vB2 : ValidatorFormOption := .fn (fun _ => some [{ name := "f", message := "B" }])

/-- Both a per-trigger `onChange` validator and a generic validator with
`triggers: ['onchange']`. -/
def oC2 : FieldFormOption :=
  { validation := some
      { triggers := some [.onchange], validator := some vB2, onChange := some vA2 } }

def cfgC2 : FormOptions := { fields := [("f", oC2)] }

def fldsC2 : FormFields := [("f", createFormField "f" oC2)]

/-- A mount-time validator that always fails. -/
def vMountC3 : ValidatorFormOption := .fn (fun _ => some [{ name := "x", message := "m" }])

def oC3 : FieldFormOption := { validation := some { onMount := some vMountC3 } }

/-- A form with a failing `onMount` validator: construction stores errors,
reset clears them. -/
def cfgC3 : FormOptions := { fields := [("x", oC3)] }

def vC3 : ValidatorFormOption :=
  .fn (fun f => if f.isDirty then some [{ name := "y", message := "dirty" }] else none)

/-- A two-field form with no mount-time validation. -/
def cfgC3b : FormOptions :=
  { fields := [("x", { default := some "a" }), ("y", { validator := some vC3 })] }

def esC3 : List FormEvent := [.input "x" (some "zz"), .change "y" (some "w"), .submit]

/-- A user validator function that throws. -/
def throwingVal : ThrowingValidator := fun _ => Except.error "validator exception"

/-- A user validator function that reports one error. -/
def okVal : ThrowingValidator :=
  fun f => Except.ok (some [{ name := f.name, message := "bad" }])

def fldsC4 : FormFields := [("a", createFormField "a" {}), ("b", createFormField "b" {})]

def valsC4 : List (String × ThrowingValidator) := [("a", throwingVal), ("b", okVal)]

def vC5 : ValidatorFormOption :=
  .fn (fun f => if f.isDirty then some [{ name := "w", message := "dirty" }] else none)

/-- A field with an `'oninput'` trigger and an `onInput` listener. -/
def oC5 : FieldFormOption :=
  { default := some "d"
    listeners := some { onInput := some (fun _ => ()) }
    validation := some { triggers := some [.oninput], validator := some vC5 } }

def cfgC5 : FormOptions := { fields := [("w", oC5)] }

def fldsC5 : FormFields := [("w", createFormField "w" oC5)]

/-- A validator returning an empty error array on clean fields: the stored
`error` becomes the empty string, which is JS-falsy. -/
def vC5x : ValidatorFormOption :=
  .fn (fun f => if f.isDirty then some [{ name := "x", message := "bad" }] else some [])

def oC5x : FieldFormOption := { default := some "", validator := some vC5x }

def cfgC5x : FormOptions := { fields := [("x", oC5x)] }

/-- State after a change event stored the empty-array validation result. -/
def fsC5x1 : FormFields := runEvent cfgC5x (createForm cfgC5x) (.change "x" (some ""))

/-- State after the subsequent input event. -/
def fsC5x2 : FormFields := runEvent cfgC5x fsC5x1 (.input "x" (some ""))

/-- The field state the input transition would validate: flags already
mutated, error the empty string. -/
def fC5mid : FormField :=
  { isChanged := false, isDirty := true, isHidden := false, isTouched := false,
    isVisible := true, name := "x", error := some "", errors := some [],
    value := some "" }

def vU6 : ValidatorFormOption := .fn (fun f => some [{ name := f.name, message := "u" }])

/-- Field `u` has a validator, field `p` has neither validator nor validation. -/
def cfgC6 : FormOptions := { fields := [("u", { validator := some vU6 }), ("p", {})] }

def esC6 : List FormEvent :=
  [.input "p" (some "zz"), .change "u" (some ""), .focus "p", .blur "p", .submit]

/-- The expected state of field `p` after `esC6`. -/
def fC6 : FormField :=
  { isChanged := true, isDirty := true, isHidden := false, isTouched := true,
    isVisible := true, name := "p", error := none, errors := none, value := some "zz" }

/-- Cross-field predicate: `b` is visible while `a` holds the value `x`. -/
def predC8 : VisibilityFunction :=
  fun fs => decide ((alookup "a" fs).map (fun f => f.value) = some (some "x"))

def cfgC8 : FormOptions :=
  { fields := [("a", { default := some "x" }), ("b", { visible := some predC8 })] }

def esC8 : List FormEvent := [.input "a" (some "y")]

/-- The expected `b` entry after `esC8`: hidden because `a` no longer holds
`x`. -/
def kvC8 : String × FormField :=
  ("b", { isChanged := false, isDirty := false, isHidden := true, isTouched := false,
          isVisible := false, name := "b", error := none, errors := none, value := none })

def vC9 : ValidatorFormOption := .fn (fun _ => some [{ name := "x", message := "E" }])

def cfgC9 : FormOptions := { fields := [("x", {}), ("y", {})] }

def fldsC9 : FormFields := [("x", createFormField "x" {}), ("y", createFormField "y" {})]

def vA10 : ValidatorFormOption :=
  .fn (fun _ => some [{ name := "x", message := "perTrigger" }])

def vB10 : ValidatorFormOption :=
  .fn (fun _ => some [{ name := "x", message := "topLevel" }])

/-- Top-level validator plus a `validation` object holding only a per-trigger
`onChange` validator. -/
def oC10 : FieldFormOption :=
  { validator := some vB10, validation := some { onChange := some vA10 } }

def cfgC10 : FormOptions := { fields := [("x", oC10)] }

/-- A field currently holding stored errors. -/
def fC10 : FormField :=
  { isChanged := false, isDirty := false, isHidden := false, isTouched := false,
    isVisible := true, name := "x", error := some "old",
    errors := some [{ name := "x", message := "old" }], value := some "" }

/-! ### Basic lemmas about lookup, update and folds -/

theorem alookup_mem {α : Type _} {k : String} {v : α} :
    ∀ {fs : List (String × α)}, alookup k fs = some v → (k, v) ∈ fs := by
  intro fs
  induction fs with
  | nil => intro h; simp [alookup] at h
  | cons kv rest ih =>
    obtain ⟨a, b⟩ := kv
    intro h
    by_cases hak : a = k
    · subst hak
      simp [alookup] at h
      subst h
      exact List.mem_cons_self _ _
    · simp [alookup, hak] at h
      exact List.mem_cons_of_mem _ (ih h)

theorem alookup_mem_keys {α : Type _} {k : String} {v : α} {fs : List (String × α)}
    (h : alookup k fs = some v) : k ∈ fs.map Prod.fst := by
  have := alookup_mem h
  exact List.mem_map_of_mem Prod.fst this

theorem alookup_of_nodup {α : Type _} {k : String} {v : α} :
    ∀ {l : List (String × α)}, (l.map Prod.fst).Nodup → (k, v) ∈ l →
      alookup k l = some v := by
  intro l
  induction l with
  | nil => intro _ h; cases h
  | cons kv rest ih =>
    obtain ⟨a, b⟩ := kv
    intro hnd h
    rw [List.map_cons, List.nodup_cons] at hnd
    rcases List.mem_cons.mp h with heq | hmem
    · cases heq
      simp [alookup]
    · have hak : a ≠ k := by
        intro heq
        subst heq
        exact hnd.1 (List.mem_map.mpr ⟨(a, v), hmem, rfl⟩)
      simp [alookup, hak]
      exact ih hnd.2 hmem

theorem mapCongrMem {α β : Type _} {l : List α} {f g : α → β}
    (h : ∀ x ∈ l, f x = g x) : l.map f = l.map g := by
  induction l with
  | nil => rfl
  | cons a rest ih =>
    have h1 := h a (List.mem_cons_self a rest)
    have h2 : ∀ x ∈ rest, f x = g x := fun x hx => h x (List.mem_cons_of_mem a hx)
    rw [List.map_cons, List.map_cons, h1, ih h2]

theorem keys_map_fst_preserving {α : Type _} {l : List (String × α)}
    {g : String × α → String × α} (h : ∀ kv, (g kv).1 = kv.1) :
    (l.map g).map Prod.fst = l.map Prod.fst := by
  rw [List.map_map]
  exact mapCongrMem (fun kv _ => h kv)

theorem alookup_map {α β : Type _} (g : String → α → β) (k : String) :
    ∀ (l : List (String × α)),
      alookup k (l.map (fun kv => (kv.1, g kv.1 kv.2))) = (alookup k l).map (g k) := by
  intro l
  induction l with
  | nil => rfl
  | cons kv rest ih =>
    obtain ⟨a, b⟩ := kv
    by_cases hak : a = k
    · subst hak
      simp [alookup]
    · simp [alookup, hak, ih]

theorem foldl_rec {α β : Type _} (P : β → Prop) (step : β → α → β)
    (hstep : ∀ b a, P b → P (step b a)) :
    ∀ (l : List α) (b : β), P b → P (List.foldl step b l) := by
  intro l
  induction l with
  | nil => intro b hb; exact hb
  | cons a rest ih => intro b hb; exact ih _ (hstep b a hb)

theorem alookup_setField_self (fs : FormFields) (k : String) (f : FormField) :
    alookup k (setField fs k f) = (alookup k fs).map (fun _ => f) := by
  induction fs with
  | nil => rfl
  | cons kv rest ih =>
    obtain ⟨a, b⟩ := kv
    by_cases hak : a = k
    · subst hak
      simp [setField, alookup]
    · simp [setField, alookup, hak] at ih ⊢
      exact ih

theorem alookup_setField_ne {k2 k : String} (hne : k2 ≠ k) (fs : FormFields) (f : FormField) :
    alookup k2 (setField fs k f) = alookup k2 fs := by
  induction fs with
  | nil => rfl
  | cons kv rest ih =>
    obtain ⟨a, b⟩ := kv
    by_cases hak : a = k
    · subst hak
      have : a ≠ k2 := fun h => hne h.symm
      simp [setField, alookup, this] at ih ⊢
      exact ih
    · by_cases hak2 : a = k2
      · subst hak2
        simp [setField, alookup, hak]
      · simp [setField, alookup, hak, hak2] at ih ⊢
        exact ih

theorem mem_setField {fs : FormFields} {k : String} {f : FormField}
    {kv : String × FormField} (h : kv ∈ setField fs k f) : kv ∈ fs ∨ kv = (k, f) := by
  unfold setField at h
  rcases List.mem_map.mp h with ⟨kv0, hkv0, heq⟩
  by_cases hk : kv0.1 = k
  · right
    rw [← heq]
    simp [hk]
  · left
    rw [← heq]
    simp [hk]
    exact hkv0

theorem keys_setField (fs : FormFields) (k : String) (f : FormField) :
    (setField fs k f).map Prod.fst = fs.map Prod.fst := by
  unfold setField
  exact keys_map_fst_preserving (fun kv => by by_cases h : kv.1 = k <;> simp [h])

theorem keys_setValue (fs : FormFields) (n : String) (v : Option String) :
    (setValue fs n v).map Prod.fst = fs.map Prod.fst := by
  unfold setValue
  exact keys_map_fst_preserving (fun kv => by by_cases h : kv.1 = n <;> simp [h])

/-! ### validate touches only error/errors -/

theorem validate_eq_update (opts : FormOptions) (field : FormField)
    (v : Option ValidatorFormOption) :
    (validate opts field v).1 =
      { field with
        error := (validate opts field v).1.error
        errors := (validate opts field v).1.errors } := rfl

theorem validate_name (opts : FormOptions) (field : FormField)
    (v : Option ValidatorFormOption) : (validate opts field v).1.name = field.name := rfl

theorem validate_value (opts : FormOptions) (field : FormField)
    (v : Option ValidatorFormOption) : (validate opts field v).1.value = field.value := rfl

theorem validate_isVisible (opts : FormOptions) (field : FormField)
    (v : Option ValidatorFormOption) :
    (validate opts field v).1.isVisible = field.isVisible := rfl

theorem validate_isHidden (opts : FormOptions) (field : FormField)
    (v : Option ValidatorFormOption) :
    (validate opts field v).1.isHidden = field.isHidden := rfl

/-- When the explicit validator argument is absent and the field's
configuration has neither a `validation` object nor a top-level `validator`,
`validate` resolves no validator and clears `error`/`errors`. -/
theorem validate_no_validator {opts : FormOptions} {field : FormField} {o : FieldFormOption}
    (ho : alookup field.name opts.fields = some o)
    (hval : o.validation = none) (hv : o.validator = none) :
    (validate opts field none).1 = { field with error := none, errors := none } := by
  unfold validate
  simp only [ho, hval, hv]

/-! ### Key preservation of every operation -/

theorem keys_visStep (opts : FormOptions) (fs : FormFields) (k : String) :
    (visStep opts fs k).map Prod.fst = fs.map Prod.fst := by
  unfold visStep
  split
  · split
    · split
      · exact keys_setField _ _ _
      · rfl
    · rfl
  · rfl

theorem keys_updateVisibility (opts : FormOptions) (fields : FormFields) :
    (updateVisibility opts fields).map Prod.fst = fields.map Prod.fst := by
  unfold updateVisibility
  exact foldl_rec (fun fs2 => fs2.map Prod.fst = fields.map Prod.fst) (visStep opts)
    (fun fs2 k h => by
      show (visStep opts fs2 k).map Prod.fst = fields.map Prod.fst
      rw [keys_visStep]
      exact h) (fields.map Prod.fst) fields rfl

theorem keys_submitStep (opts : FormOptions) (fs : FormFields) (k : String) :
    (submitStep opts fs k).map Prod.fst = fs.map Prod.fst := by
  unfold submitStep
  split
  · split
    · exact keys_setField _ _ _
    · rfl
  · rfl

theorem keys_validateForm (opts : FormOptions) (fields : FormFields) :
    (validateForm opts fields).map Prod.fst = fields.map Prod.fst := by
  unfold validateForm
  exact foldl_rec (fun fs2 => fs2.map Prod.fst = fields.map Prod.fst) (submitStep opts)
    (fun fs2 k h => by
      show (submitStep opts fs2 k).map Prod.fst = fields.map Prod.fst
      rw [keys_submitStep]
      exact h) (fields.map Prod.fst) fields rfl

theorem keys_handleBlurEvent (opts : FormOptions) (fields : FormFields) (n : String) :
    ((handleBlurEvent opts fields n).1).map Prod.fst = fields.map Prod.fst := by
  unfold handleBlurEvent
  split
  · exact keys_setField _ _ _
  · rfl

theorem keys_handleChangeEvent (opts : FormOptions) (fields : FormFields) (n : String) :
    ((handleChangeEvent opts fields n).1).map Prod.fst = fields.map Prod.fst := by
  unfold handleChangeEvent
  split
  · show (updateVisibility opts (setField fields n _)).map Prod.fst = fields.map Prod.fst
    rw [keys_updateVisibility, keys_setField]
  · rfl

theorem keys_handleFocusEvent (opts : FormOptions) (fields : FormFields) (n : String) :
    ((handleFocusEvent opts fields n).1).map Prod.fst = fields.map Prod.fst := by
  unfold handleFocusEvent
  split
  · exact keys_setField _ _ _
  · rfl

theorem keys_handleInputEvent (opts : FormOptions) (fields : FormFields) (n : String) :
    ((handleInputEvent opts fields n).1).map Prod.fst = fields.map Prod.fst := by
  unfold handleInputEvent
  split
  · show (updateVisibility opts (setField fields n _)).map Prod.fst = fields.map Prod.fst
    rw [keys_updateVisibility, keys_setField]
  · rfl

theorem keys_reset (opts : FormOptions) (fields : FormFields) :
    (reset opts fields).map Prod.fst = fields.map Prod.fst := by
  unfold reset
  rw [keys_updateVisibility]
  exact keys_map_fst_preserving
    (fun kv => by cases h : alookup kv.1 opts.fields <;> simp [h])

theorem keys_createFormFields (opts : FormOptions) :
    (createFormFields opts).map Prod.fst = opts.fields.map Prod.fst := by
  unfold createFormFields
  rw [List.map_map]
  exact mapCongrMem (fun kv _ => rfl)

theorem keys_createForm (opts : FormOptions) :
    (createForm opts).map Prod.fst = opts.fields.map Prod.fst := by
  unfold createForm
  rw [keys_updateVisibility, keys_createFormFields]

theorem keys_runEvent (opts : FormOptions) (fields : FormFields) (e : FormEvent) :
    (runEvent opts fields e).map Prod.fst = fields.map Prod.fst := by
  cases e with
  | blur n => exact keys_handleBlurEvent opts fields n
  | change n v => rw [runEvent, keys_handleChangeEvent, keys_setValue]
  | focus n => exact keys_handleFocusEvent opts fields n
  | input n v => rw [runEvent, keys_handleInputEvent, keys_setValue]
  | submit => exact keys_validateForm opts fields
  | reset => exact keys_reset opts fields

theorem keys_runEvents (opts : FormOptions) (es : List FormEvent) :
    (runEvents opts es).map Prod.fst = opts.fields.map Prod.fst := by
  unfold runEvents
  exact foldl_rec (fun fs2 => fs2.map Prod.fst = opts.fields.map Prod.fst) (runEvent opts)
    (fun fs2 e h => by
      show (runEvent opts fs2 e).map Prod.fst = opts.fields.map Prod.fst
      rw [keys_runEvent]
      exact h) es (createForm opts)
    (keys_createForm opts)

/-! ### Pointwise characterization of validateForm -/

/-- The effect of the submit loop on a single field's state. -/
def submitOne (opts : FormOptions) (key : String) (x : Option FormField) : Option FormField :=
  match alookup key opts.fields, x with
  | some o, some f =>
    some (validate opts f (Option.bind o.validation (fun v => v.onSubmit))).1
  | _, _ => x

theorem alookup_submitStep_ne {k k2 : String} (hne : k ≠ k2)
    (opts : FormOptions) (fs : FormFields) :
    alookup k (submitStep opts fs k2) = alookup k fs := by
  unfold submitStep
  split
  · split
    · exact alookup_setField_ne hne _ _
    · rfl
  · rfl

theorem alookup_submitStep_self (opts : FormOptions) (fs : FormFields) (k : String) :
    alookup k (submitStep opts fs k) = submitOne opts k (alookup k fs) := by
  unfold submitStep submitOne
  cases ho : alookup k opts.fields with
  | none =>
    cases hx : alookup k fs with
    | none => rfl
    | some f => rfl
  | some o =>
    cases hf : alookup k fs with
    | none =>
      show alookup k fs = none
      exact hf
    | some f =>
      show alookup k (setField fs k _) = _
      rw [alookup_setField_self, hf]
      rfl

theorem alookup_foldl_submit_not_mem {k : String} (opts : FormOptions) :
    ∀ (ks : List String) (fs : FormFields), k ∉ ks →
      alookup k (List.foldl (submitStep opts) fs ks) = alookup k fs := by
  intro ks
  induction ks with
  | nil => intro fs _; rfl
  | cons k2 rest ih =>
    intro fs hk
    rw [List.foldl_cons, ih _ (fun h => hk (List.mem_cons_of_mem _ h)),
      alookup_submitStep_ne (fun h => hk (by rw [h]; exact List.mem_cons_self _ _)) opts fs]

theorem alookup_foldl_submit_mem {k : String} (opts : FormOptions) :
    ∀ (ks : List String) (fs : FormFields), ks.Nodup → k ∈ ks →
      alookup k (List.foldl (submitStep opts) fs ks) = submitOne opts k (alookup k fs) := by
  intro ks
  induction ks with
  | nil => intro fs _ hk; cases hk
  | cons k2 rest ih =>
    intro fs hnd hk
    rw [List.nodup_cons] at hnd
    by_cases hkk : k = k2
    · subst hkk
      rw [List.foldl_cons, alookup_foldl_submit_not_mem opts rest _ hnd.1,
        alookup_submitStep_self]
    · rcases List.mem_cons.mp hk with h | hmem
      · exact absurd h hkk
      · rw [List.foldl_cons, ih _ hnd.2 hmem, alookup_submitStep_ne hkk opts fs]

/-- With distinct field keys, the state of each field after `validateForm` is
the submit-validated image of its previous state. -/
theorem alookup_validateForm {opts : FormOptions} {fields : FormFields} {key : String}
    (hnd : (fields.map Prod.fst).Nodup) :
    alookup key (validateForm opts fields) = submitOne opts key (alookup key fields) := by
  unfold validateForm
  by_cases hk : key ∈ fields.map Prod.fst
  · exact alookup_foldl_submit_mem opts _ fields hnd hk
  · rw [alookup_foldl_submit_not_mem opts _ fields hk]
    cases hf : alookup key fields with
    | none =>
      unfold submitOne
      cases alookup key opts.fields <;> rfl
    | some f => exact absurd (alookup_mem_keys hf) hk

/-! ### Shape of the event handlers

Every event handler either leaves the state unchanged (unbound name) or
rewrites the named field to a new state `field1` that keeps the field's
name and visibility flags and either keeps `error`/`errors` or is the
output of `validate`; the latter clears `error`/`errors` whenever the
field's configuration has neither a `validation` object nor a top-level
`validator`. -/

/-- Relation between a field state and its image under one handler, as far
as name, visibility and the unvalidated-field error invariant go. -/
def FieldStepOk (field field1 : FormField) (o : FieldFormOption) : Prop :=
  field1.name = field.name ∧
  field1.isVisible = field.isVisible ∧
  field1.isHidden = field.isHidden ∧
  ((field1.error = field.error ∧ field1.errors = field.errors) ∨
    (o.validation = none → o.validator = none →
      field1.error = none ∧ field1.errors = none))

theorem fieldStepOk_validate {opts : FormOptions} {n : String} {field fieldX : FormField}
    {o : FieldFormOption}
    (ho : alookup n opts.fields = some o) (hnm : fieldX.name = n)
    (hX1 : fieldX.name = field.name) (hX2 : fieldX.isVisible = field.isVisible)
    (hX3 : fieldX.isHidden = field.isHidden) :
    FieldStepOk field (validate opts fieldX none).1 o := by
  refine ⟨hX1, hX2, hX3, Or.inr ?_⟩
  intro hval hv
  have h := validate_no_validator (by rw [hnm]; exact ho) hval hv
  rw [h]
  exact ⟨rfl, rfl⟩

theorem fieldStepOk_perTrigger {field field1 : FormField} {o : FieldFormOption}
    {proj : ValidationFormOption → Option ValidatorFormOption} {v : ValidatorFormOption}
    (hB : Option.bind o.validation proj = some v)
    (hX1 : field1.name = field.name) (hX2 : field1.isVisible = field.isVisible)
    (hX3 : field1.isHidden = field.isHidden) :
    FieldStepOk field field1 o := by
  refine ⟨hX1, hX2, hX3, Or.inr ?_⟩
  intro hval _
  rw [hval] at hB
  simp at hB

theorem handleBlur_shape (opts : FormOptions) (fs : FormFields) (n : String) :
    (handleBlurEvent opts fs n).1 = fs ∨
    ∃ field o field1, alookup n fs = some field ∧ alookup n opts.fields = some o ∧
      (handleBlurEvent opts fs n).1 = setField fs n field1 ∧
      (field.name = n → FieldStepOk field field1 o) := by
  cases hfd : alookup n fs with
  | none =>
    left
    simp [handleBlurEvent, hfd]
  | some field =>
    cases ho : alookup n opts.fields with
    | none =>
      left
      simp [handleBlurEvent, hfd, ho]
    | some o =>
      right
      cases hOB : Option.bind o.validation (fun v => v.onBlur) with
      | some v =>
        refine ⟨field, o, (validate opts field (some v)).1, rfl, rfl, ?_, ?_⟩
        · simp [handleBlurEvent, hfd, ho, hOB]
        · intro _
          exact fieldStepOk_perTrigger hOB rfl rfl rfl
      | none =>
        cases hTr : ((Option.bind o.validation (fun v => v.triggers)).getD []).contains
            ValidationTrigger.onblur with
        | true =>
          refine ⟨field, o, (validate opts field none).1, rfl, rfl, ?_, ?_⟩
          · simp [handleBlurEvent, hfd, ho, hOB, hTr]
          · intro hnm
            exact fieldStepOk_validate ho hnm rfl rfl rfl
        | false =>
          refine ⟨field, o, field, rfl, rfl, ?_, ?_⟩
          · simp [handleBlurEvent, hfd, ho, hOB, hTr]
          · intro _
            exact ⟨rfl, rfl, rfl, Or.inl ⟨rfl, rfl⟩⟩

theorem handleFocus_shape (opts : FormOptions) (fs : FormFields) (n : String) :
    (handleFocusEvent opts fs n).1 = fs ∨
    ∃ field o field1, alookup n fs = some field ∧ alookup n opts.fields = some o ∧
      (handleFocusEvent opts fs n).1 = setField fs n field1 ∧
      (field.name = n → FieldStepOk field field1 o) := by
  cases hfd : alookup n fs with
  | none =>
    left
    simp [handleFocusEvent, hfd]
  | some field =>
    cases ho : alookup n opts.fields with
    | none =>
      left
      simp [handleFocusEvent, hfd, ho]
    | some o =>
      right
      cases hOB : Option.bind o.validation (fun v => v.onFocus) with
      | some v =>
        refine ⟨field, o, (validate opts { field with isTouched := true } (some v)).1,
          rfl, rfl, ?_, ?_⟩
        · simp [handleFocusEvent, hfd, ho, hOB]
        · intro _
          exact fieldStepOk_perTrigger hOB rfl rfl rfl
      | none =>
        cases hTr : ((Option.bind o.validation (fun v => v.triggers)).getD []).contains
            ValidationTrigger.onfocus with
        | true =>
          refine ⟨field, o, (validate opts { field with isTouched := true } none).1,
            rfl, rfl, ?_, ?_⟩
          · simp [handleFocusEvent, hfd, ho, hOB, hTr]
          · intro hnm
            exact fieldStepOk_validate ho hnm rfl rfl rfl
        | false =>
          refine ⟨field, o, { field with isTouched := true }, rfl, rfl, ?_, ?_⟩
          · simp [handleFocusEvent, hfd, ho, hOB, hTr]
          · intro _
            exact ⟨rfl, rfl, rfl, Or.inl ⟨rfl, rfl⟩⟩

theorem handleChange_shape (opts : FormOptions) (fs : FormFields) (n : String) :
    (handleChangeEvent opts fs n).1 = fs ∨
    ∃ field o field1, alookup n fs = some field ∧ alookup n opts.fields = some o ∧
      (handleChangeEvent opts fs n).1 = updateVisibility opts (setField fs n field1) ∧
      (field.name = n → FieldStepOk field field1 o) := by
  cases hfd : alookup n fs with
  | none =>
    left
    simp [handleChangeEvent, hfd]
  | some field =>
    cases ho : alookup n opts.fields with
    | none =>
      left
      simp [handleChangeEvent, hfd, ho]
    | some o =>
      right
      cases hOB : Option.bind o.validation (fun v => v.onChange) with
      | some v =>
        refine ⟨field, o, (validate opts field (some v)).1, rfl, rfl, ?_, ?_⟩
        · simp [handleChangeEvent, hfd, ho, hOB]
        · intro _
          exact fieldStepOk_perTrigger hOB rfl rfl rfl
      | none =>
        cases hTr : ((Option.bind o.validation (fun v => v.triggers)).getD []).contains
            ValidationTrigger.onchange with
        | true =>
          refine ⟨field, o, (validate opts field none).1, rfl, rfl, ?_, ?_⟩
          · simp [handleChangeEvent, hfd, ho, hOB, hTr]
          · intro hnm
            exact fieldStepOk_validate ho hnm rfl rfl rfl
        | false =>
          cases hN : (Option.bind o.validation (fun v => v.triggers)).isNone with
          | true =>
            refine ⟨field, o, (validate opts field none).1, rfl, rfl, ?_, ?_⟩
            · simp [handleChangeEvent, hfd, ho, hOB, hTr, hN]
            · intro hnm
              exact fieldStepOk_validate ho hnm rfl rfl rfl
          | false =>
            refine ⟨field, o, field, rfl, rfl, ?_, ?_⟩
            · simp [handleChangeEvent, hfd, ho, hOB, hTr, hN]
            · intro _
              exact ⟨rfl, rfl, rfl, Or.inl ⟨rfl, rfl⟩⟩

theorem handleInput_shape (opts : FormOptions) (fs : FormFields) (n : String) :
    (handleInputEvent opts fs n).1 = fs ∨
    ∃ field o field1, alookup n fs = some field ∧ alookup n opts.fields = some o ∧
      (handleInputEvent opts fs n).1 = updateVisibility opts (setField fs n field1) ∧
      (field.name = n → FieldStepOk field field1 o) := by
  cases hfd : alookup n fs with
  | none =>
    left
    simp [handleInputEvent, hfd]
  | some field =>
    cases ho : alookup n opts.fields with
    | none =>
      left
      simp [handleInputEvent, hfd, ho]
    | some o =>
      right
      cases hOB : Option.bind o.validation (fun v => v.onInput) with
      | some v =>
        refine ⟨field, o,
          (validate opts
            { field with isDirty := true
                         isChanged := valueNeqDefault field.value o.default } (some v)).1,
          rfl, rfl, ?_, ?_⟩
        · simp [handleInputEvent, hfd, ho, hOB]
        · intro _
          exact fieldStepOk_perTrigger hOB rfl rfl rfl
      | none =>
        cases hTr : ((Option.bind o.validation (fun v => v.triggers)).getD []).contains
            ValidationTrigger.oninput with
        | true =>
          refine ⟨field, o,
            (validate opts
              { field with isDirty := true
                           isChanged := valueNeqDefault field.value o.default } none).1,
            rfl, rfl, ?_, ?_⟩
          · simp [handleInputEvent, hfd, ho, hOB, hTr]
          · intro hnm
            exact fieldStepOk_validate ho hnm rfl rfl rfl
        | false =>
          cases hF : truthyStr field.error &&
              (Option.bind o.validation (fun v => v.triggers)).isNone with
          | true =>
            refine ⟨field, o,
              (validate opts
                { field with isDirty := true
                             isChanged := valueNeqDefault field.value o.default } none).1,
              rfl, rfl, ?_, ?_⟩
            · simp [handleInputEvent, hfd, ho, hOB, hTr, hF]
            · intro hnm
              exact fieldStepOk_validate ho hnm rfl rfl rfl
          | false =>
            refine ⟨field, o,
              { field with isDirty := true
                           isChanged := valueNeqDefault field.value o.default },
              rfl, rfl, ?_, ?_⟩
            · simp [handleInputEvent, hfd, ho, hOB, hTr, hF]
            · intro _
              exact ⟨rfl, rfl, rfl, Or.inl ⟨rfl, rfl⟩⟩

/-! ### Reachable-state invariants -/

/-- The configuration declares no validator at all under `key`. -/
abbrev NoValAt (opts : FormOptions) (key : String) : Prop :=
  ∀ o, (key, o) ∈ opts.fields → o.validator = none ∧ o.validation = none

/-- The entry's field reports no error whenever its configuration has no
validator. -/
abbrev cleanEntry (opts : FormOptions) (kv : String × FormField) : Prop :=
  NoValAt opts kv.1 → kv.2.error = none ∧ kv.2.errors = none

/-- Every stored field's `name` is its key. -/
abbrev NamesOk (fs : FormFields) : Prop := ∀ kv ∈ fs, kv.2.name = kv.1

/-- Combined invariant used for the unvalidated-field claim. -/
abbrev GoodErr (opts : FormOptions) (fs : FormFields) : Prop :=
  NamesOk fs ∧ ∀ kv ∈ fs, cleanEntry opts kv

theorem namesOk_alookup {fs : FormFields} {k : String} {f : FormField}
    (h : NamesOk fs) (hf : alookup k fs = some f) : f.name = k :=
  h (k, f) (alookup_mem hf)

theorem mountField_cases (opts : FormOptions) (k : String) (o : FieldFormOption) :
    mountField opts k o = createFormField k o ∨
    ∃ x, mountField opts k o = (validate opts (createFormField k o) x).1 := by
  simp only [mountField]
  split
  · split
    · right
      exact ⟨_, rfl⟩
    · split
      · right
        exact ⟨_, rfl⟩
      · left
        rfl
  · left
    rfl

theorem mountField_flags (opts : FormOptions) (k : String) (o : FieldFormOption) :
    (mountField opts k o).name = k ∧ (mountField opts k o).isVisible = true ∧
      (mountField opts k o).isHidden = false := by
  rcases mountField_cases opts k o with h | ⟨x, h⟩ <;> rw [h] <;> exact ⟨rfl, rfl, rfl⟩

theorem mountField_noValidation {opts : FormOptions} {k : String} {o : FieldFormOption}
    (h : o.validation = none) : mountField opts k o = createFormField k o := by
  unfold mountField
  rw [h]

theorem goodErr_setField {opts : FormOptions} {fs : FormFields} {k : String} {f : FormField}
    (h : GoodErr opts fs) (hname : f.name = k) (hclean : cleanEntry opts (k, f)) :
    GoodErr opts (setField fs k f) := by
  constructor
  · intro kv hkv
    rcases mem_setField hkv with hin | heq
    · exact h.1 kv hin
    · rw [heq]
      exact hname
  · intro kv hkv
    rcases mem_setField hkv with hin | heq
    · exact h.2 kv hin
    · rw [heq]
      exact hclean

theorem visStep_cases (opts : FormOptions) (fs : FormFields) (k : String) :
    visStep opts fs k = fs ∨
    ∃ o pred f, alookup k opts.fields = some o ∧ o.visible = some pred ∧
      alookup k fs = some f ∧
      visStep opts fs k =
        setField fs k { f with isVisible := pred fs, isHidden := !(pred fs) } := by
  simp only [visStep]
  split
  next o ho =>
    split
    next pred hpred =>
      split
      next f hf =>
        right
        exact ⟨o, pred, f, ho, hpred, hf, rfl⟩
      next hf =>
        left
        rfl
    next hpred =>
      left
      rfl
  next ho =>
    left
    rfl

theorem goodErr_visStep {opts : FormOptions} {fs : FormFields} (k : String)
    (h : GoodErr opts fs) : GoodErr opts (visStep opts fs k) := by
  rcases visStep_cases opts fs k with heq | ⟨o, pred, f, ho, hpred, hf, heq⟩
  · rw [heq]
    exact h
  · rw [heq]
    refine goodErr_setField h ?_ ?_
    · show f.name = k
      exact namesOk_alookup h.1 hf
    · intro hnv
      exact (h.2 (k, f) (alookup_mem hf)) hnv

theorem goodErr_updateVisibility {opts : FormOptions} {fs : FormFields}
    (h : GoodErr opts fs) : GoodErr opts (updateVisibility opts fs) := by
  unfold updateVisibility
  exact foldl_rec (GoodErr opts) (visStep opts)
    (fun fs2 k hh => goodErr_visStep k hh) _ fs h

theorem goodErr_setValue {opts : FormOptions} {fs : FormFields} {n : String}
    {v : Option String} (h : GoodErr opts fs) : GoodErr opts (setValue fs n v) := by
  constructor
  · intro kv hkv
    rcases List.mem_map.mp hkv with ⟨kv0, hkv0, heq⟩
    rw [← heq]
    by_cases hn : kv0.1 = n
    · rw [if_pos hn]
      exact h.1 kv0 hkv0
    · rw [if_neg hn]
      exact h.1 kv0 hkv0
  · intro kv hkv
    rcases List.mem_map.mp hkv with ⟨kv0, hkv0, heq⟩
    rw [← heq]
    by_cases hn : kv0.1 = n
    · rw [if_pos hn]
      exact fun hnv => (h.2 kv0 hkv0) hnv
    · rw [if_neg hn]
      exact h.2 kv0 hkv0

theorem goodErr_handler_core {opts : FormOptions} {fs : FormFields} {n : String}
    {field field1 : FormField} {o : FieldFormOption}
    (h : GoodErr opts fs) (hfd : alookup n fs = some field)
    (ho : alookup n opts.fields = some o)
    (hstep : field.name = n → FieldStepOk field field1 o) :
    GoodErr opts (setField fs n field1) := by
  have hnm : field.name = n := namesOk_alookup h.1 hfd
  obtain ⟨h1, _, _, h4⟩ := hstep hnm
  apply goodErr_setField h (by rw [h1, hnm])
  intro hnv
  rcases h4 with ⟨he, hes⟩ | hclear
  · have hold := (h.2 (n, field) (alookup_mem hfd)) hnv
    exact ⟨by rw [he]; exact hold.1, by rw [hes]; exact hold.2⟩
  · have ho2 := hnv o (alookup_mem ho)
    exact hclear ho2.2 ho2.1

theorem goodErr_handleBlur {opts : FormOptions} {fs : FormFields} (n : String)
    (h : GoodErr opts fs) : GoodErr opts (handleBlurEvent opts fs n).1 := by
  rcases handleBlur_shape opts fs n with heq | ⟨field, o, field1, hfd, ho, heq, hstep⟩
  · rw [heq]; exact h
  · rw [heq]
    exact goodErr_handler_core h hfd ho hstep

theorem goodErr_handleFocus {opts : FormOptions} {fs : FormFields} (n : String)
    (h : GoodErr opts fs) : GoodErr opts (handleFocusEvent opts fs n).1 := by
  rcases handleFocus_shape opts fs n with heq | ⟨field, o, field1, hfd, ho, heq, hstep⟩
  · rw [heq]; exact h
  · rw [heq]
    exact goodErr_handler_core h hfd ho hstep

theorem goodErr_handleChange {opts : FormOptions} {fs : FormFields} (n : String)
    (h : GoodErr opts fs) : GoodErr opts (handleChangeEvent opts fs n).1 := by
  rcases handleChange_shape opts fs n with heq | ⟨field, o, field1, hfd, ho, heq, hstep⟩
  · rw [heq]; exact h
  · rw [heq]
    exact goodErr_updateVisibility (goodErr_handler_core h hfd ho hstep)

theorem goodErr_handleInput {opts : FormOptions} {fs : FormFields} (n : String)
    (h : GoodErr opts fs) : GoodErr opts (handleInputEvent opts fs n).1 := by
  rcases handleInput_shape opts fs n with heq | ⟨field, o, field1, hfd, ho, heq, hstep⟩
  · rw [heq]; exact h
  · rw [heq]
    exact goodErr_updateVisibility (goodErr_handler_core h hfd ho hstep)

theorem submitStep_cases (opts : FormOptions) (fs : FormFields) (k : String) :
    submitStep opts fs k = fs ∨
    ∃ o f, alookup k opts.fields = some o ∧ alookup k fs = some f ∧
      submitStep opts fs k =
        setField fs k (validate opts f (Option.bind o.validation (fun v => v.onSubmit))).1 := by
  simp only [submitStep]
  split
  next o ho =>
    split
    next f hf =>
      right
      exact ⟨o, f, ho, hf, rfl⟩
    next hf =>
      left
      rfl
  next ho =>
    left
    rfl

theorem goodErr_submitStep {opts : FormOptions} {fs : FormFields} (k : String)
    (h : GoodErr opts fs) : GoodErr opts (submitStep opts fs k) := by
  rcases submitStep_cases opts fs k with heq | ⟨o, f, ho, hf, heq⟩
  · rw [heq]
    exact h
  · rw [heq]
    have hnm : f.name = k := namesOk_alookup h.1 hf
    apply goodErr_setField h (by rw [validate_name, hnm])
    intro hnv
    have ho2 := hnv o (alookup_mem ho)
    have hb : Option.bind o.validation (fun v => v.onSubmit) = none := by
      rw [ho2.2]
      rfl
    rw [hb]
    have hval := validate_no_validator (by rw [hnm]; exact ho) ho2.2 ho2.1
    rw [hval]
    exact ⟨rfl, rfl⟩

theorem goodErr_validateForm {opts : FormOptions} {fs : FormFields}
    (h : GoodErr opts fs) : GoodErr opts (validateForm opts fs) := by
  unfold validateForm
  exact foldl_rec (GoodErr opts) (submitStep opts)
    (fun fs2 k hh => goodErr_submitStep k hh) _ fs h

theorem goodErr_reset {opts : FormOptions} {fs : FormFields}
    (h : GoodErr opts fs) : GoodErr opts (reset opts fs) := by
  unfold reset
  apply goodErr_updateVisibility
  constructor
  · intro kv hkv
    rcases List.mem_map.mp hkv with ⟨kv0, hkv0, heq⟩
    rw [← heq]
    cases hl : alookup kv0.1 opts.fields with
    | none => exact h.1 kv0 hkv0
    | some o => rfl
  · intro kv hkv
    rcases List.mem_map.mp hkv with ⟨kv0, hkv0, heq⟩
    rw [← heq]
    cases hl : alookup kv0.1 opts.fields with
    | none => exact h.2 kv0 hkv0
    | some o => exact fun _ => ⟨rfl, rfl⟩

theorem goodErr_createFormFields (opts : FormOptions) :
    GoodErr opts (createFormFields opts) := by
  constructor
  · intro kv hkv
    rcases List.mem_map.mp hkv with ⟨kv0, hkv0, heq⟩
    rw [← heq]
    exact (mountField_flags opts kv0.1 kv0.2).1
  · intro kv hkv
    rcases List.mem_map.mp hkv with ⟨kv0, hkv0, heq⟩
    rw [← heq]
    intro hnv
    have h2 := hnv kv0.2 hkv0
    rw [mountField_noValidation h2.2]
    exact ⟨rfl, rfl⟩

theorem goodErr_createForm (opts : FormOptions) : GoodErr opts (createForm opts) :=
  goodErr_updateVisibility (goodErr_createFormFields opts)

theorem goodErr_runEvent {opts : FormOptions} {fs : FormFields} (e : FormEvent)
    (h : GoodErr opts fs) : GoodErr opts (runEvent opts fs e) := by
  cases e with
  | blur n => exact goodErr_handleBlur n h
  | change n v => exact goodErr_handleChange n (goodErr_setValue h)
  | focus n => exact goodErr_handleFocus n h
  | input n v => exact goodErr_handleInput n (goodErr_setValue h)
  | submit => exact goodErr_validateForm h
  | reset => exact goodErr_reset h

theorem goodErr_runEvents (opts : FormOptions) (es : List FormEvent) :
    GoodErr opts (runEvents opts es) := by
  unfold runEvents
  exact foldl_rec (GoodErr opts) (runEvent opts)
    (fun fs e hh => goodErr_runEvent e hh) es _ (goodErr_createForm opts)

/-! ### Visibility invariant -/

/-- The configuration declares no visibility predicate under `key`. -/
abbrev NoVisAt (opts : FormOptions) (key : String) : Prop :=
  ∀ o, (key, o) ∈ opts.fields → o.visible = none

/-- `isHidden` is the negation of `isVisible`, and fields without a
visibility predicate are visible. -/
abbrev visEntry (opts : FormOptions) (kv : String × FormField) : Prop :=
  kv.2.isHidden = !kv.2.isVisible ∧ (NoVisAt opts kv.1 → kv.2.isVisible = true)

/-- The visibility invariant for a whole form state. -/
abbrev VisOk (opts : FormOptions) (fs : FormFields) : Prop := ∀ kv ∈ fs, visEntry opts kv

theorem visOk_setField {opts : FormOptions} {fs : FormFields} {k : String} {f : FormField}
    (h : VisOk opts fs) (hf : visEntry opts (k, f)) : VisOk opts (setField fs k f) := by
  intro kv hkv
  rcases mem_setField hkv with hin | heq
  · exact h kv hin
  · rw [heq]
    exact hf

theorem visOk_visStep {opts : FormOptions} {fs : FormFields} (k : String)
    (h : VisOk opts fs) : VisOk opts (visStep opts fs k) := by
  rcases visStep_cases opts fs k with heq | ⟨o, pred, f, ho, hpred, hf, heq⟩
  · rw [heq]
    exact h
  · rw [heq]
    refine visOk_setField h ⟨rfl, ?_⟩
    intro hnv
    have hcontra := hnv o (alookup_mem ho)
    rw [hpred] at hcontra
    exact absurd hcontra (Option.some_ne_none pred)

theorem visOk_updateVisibility {opts : FormOptions} {fs : FormFields}
    (h : VisOk opts fs) : VisOk opts (updateVisibility opts fs) := by
  unfold updateVisibility
  exact foldl_rec (VisOk opts) (visStep opts)
    (fun fs2 k hh => visOk_visStep k hh) _ fs h

theorem visOk_setValue {opts : FormOptions} {fs : FormFields} {n : String}
    {v : Option String} (h : VisOk opts fs) : VisOk opts (setValue fs n v) := by
  intro kv hkv
  rcases List.mem_map.mp hkv with ⟨kv0, hkv0, heq⟩
  rw [← heq]
  by_cases hn : kv0.1 = n
  · rw [if_pos hn]
    exact h kv0 hkv0
  · rw [if_neg hn]
    exact h kv0 hkv0

theorem visOk_handler_core {opts : FormOptions} {fs : FormFields} {n : String}
    {field field1 : FormField} {o : FieldFormOption}
    (hG : GoodErr opts fs) (hV : VisOk opts fs) (hfd : alookup n fs = some field)
    (hstep : field.name = n → FieldStepOk field field1 o) :
    VisOk opts (setField fs n field1) := by
  have hnm : field.name = n := namesOk_alookup hG.1 hfd
  obtain ⟨_, h2, h3, _⟩ := hstep hnm
  have hold := hV (n, field) (alookup_mem hfd)
  refine visOk_setField hV ⟨?_, ?_⟩
  · rw [h3, h2]
    exact hold.1
  · intro hnv
    rw [h2]
    exact hold.2 hnv

theorem visOk_handleBlur {opts : FormOptions} {fs : FormFields} (n : String)
    (hG : GoodErr opts fs) (hV : VisOk opts fs) :
    VisOk opts (handleBlurEvent opts fs n).1 := by
  rcases handleBlur_shape opts fs n with heq | ⟨field, o, field1, hfd, ho, heq, hstep⟩
  · rw [heq]
    exact hV
  · rw [heq]
    exact visOk_handler_core hG hV hfd hstep

theorem visOk_handleFocus {opts : FormOptions} {fs : FormFields} (n : String)
    (hG : GoodErr opts fs) (hV : VisOk opts fs) :
    VisOk opts (handleFocusEvent opts fs n).1 := by
  rcases handleFocus_shape opts fs n with heq | ⟨field, o, field1, hfd, ho, heq, hstep⟩
  · rw [heq]
    exact hV
  · rw [heq]
    exact visOk_handler_core hG hV hfd hstep

theorem visOk_handleChange {opts : FormOptions} {fs : FormFields} (n : String)
    (hG : GoodErr opts fs) (hV : VisOk opts fs) :
    VisOk opts (handleChangeEvent opts fs n).1 := by
  rcases handleChange_shape opts fs n with heq | ⟨field, o, field1, hfd, ho, heq, hstep⟩
  · rw [heq]
    exact hV
  · rw [heq]
    exact visOk_updateVisibility (visOk_handler_core hG hV hfd hstep)

theorem visOk_handleInput {opts : FormOptions} {fs : FormFields} (n : String)
    (hG : GoodErr opts fs) (hV : VisOk opts fs) :
    VisOk opts (handleInputEvent opts fs n).1 := by
  rcases handleInput_shape opts fs n with heq | ⟨field, o, field1, hfd, ho, heq, hstep⟩
  · rw [heq]
    exact hV
  · rw [heq]
    exact visOk_updateVisibility (visOk_handler_core hG hV hfd hstep)

theorem visOk_submitStep {opts : FormOptions} {fs : FormFields} (k : String)
    (h : VisOk opts fs) : VisOk opts (submitStep opts fs k) := by
  rcases submitStep_cases opts fs k with heq | ⟨o, f, ho, hf, heq⟩
  · rw [heq]
    exact h
  · rw [heq]
    have hold := h (k, f) (alookup_mem hf)
    refine visOk_setField h ⟨?_, ?_⟩
    · rw [validate_isHidden, validate_isVisible]
      exact hold.1
    · intro hnv
      rw [validate_isVisible]
      exact hold.2 hnv

theorem visOk_validateForm {opts : FormOptions} {fs : FormFields}
    (h : VisOk opts fs) : VisOk opts (validateForm opts fs) := by
  unfold validateForm
  exact foldl_rec (VisOk opts) (submitStep opts)
    (fun fs2 k hh => visOk_submitStep k hh) _ fs h

theorem visOk_reset {opts : FormOptions} {fs : FormFields}
    (h : VisOk opts fs) : VisOk opts (reset opts fs) := by
  unfold reset
  apply visOk_updateVisibility
  intro kv hkv
  rcases List.mem_map.mp hkv with ⟨kv0, hkv0, heq⟩
  rw [← heq]
  cases hl : alookup kv0.1 opts.fields with
  | none => exact h kv0 hkv0
  | some o => exact ⟨rfl, fun _ => rfl⟩

theorem visOk_createFormFields (opts : FormOptions) :
    VisOk opts (createFormFields opts) := by
  intro kv hkv
  rcases List.mem_map.mp hkv with ⟨kv0, hkv0, heq⟩
  rw [← heq]
  have hfl := mountField_flags opts kv0.1 kv0.2
  exact ⟨by rw [hfl.2.2, hfl.2.1]; rfl, fun _ => hfl.2.1⟩

theorem visOk_createForm (opts : FormOptions) : VisOk opts (createForm opts) :=
  visOk_updateVisibility (visOk_createFormFields opts)

theorem visOk_runEvent {opts : FormOptions} {fs : FormFields} (e : FormEvent)
    (hG : GoodErr opts fs) (hV : VisOk opts fs) : VisOk opts (runEvent opts fs e) := by
  cases e with
  | blur n => exact visOk_handleBlur n hG hV
  | change n v => exact visOk_handleChange n (goodErr_setValue hG) (visOk_setValue hV)
  | focus n => exact visOk_handleFocus n hG hV
  | input n v => exact visOk_handleInput n (goodErr_setValue hG) (visOk_setValue hV)
  | submit => exact visOk_validateForm hV
  | reset => exact visOk_reset hV

theorem visOk_runEvents (opts : FormOptions) (es : List FormEvent) :
    VisOk opts (runEvents opts es) := by
  unfold runEvents
  have h := foldl_rec (fun fs => GoodErr opts fs ∧ VisOk opts fs) (runEvent opts)
    (fun fs e hh => ⟨goodErr_runEvent e hh.1, visOk_runEvent e hh.1 hh.2⟩) es
    (createForm opts) ⟨goodErr_createForm opts, visOk_createForm opts⟩
  exact h.2

/-! ### Reset versus construction -/

/-- The field configuration requests no mount-time validation: no
`validation.onMount` validator and no `'onmount'` entry in the trigger
list. -/
abbrev noMountValidation (o : FieldFormOption) : Prop :=
  Option.bind o.validation (fun v => v.onMount) = none ∧
  ((Option.bind o.validation (fun v => v.triggers)).getD []).contains
    ValidationTrigger.onmount = false

theorem mountField_eq_createFormField {opts : FormOptions} {k : String}
    {o : FieldFormOption} (h : noMountValidation o) :
    mountField opts k o = createFormField k o := by
  cases hv : o.validation with
  | none => exact mountField_noValidation hv
  | some val =>
    have h1 : val.onMount = none := by
      have hh := h.1
      rw [hv] at hh
      simpa using hh
    have h2 : (val.triggers.getD []).contains ValidationTrigger.onmount = false := by
      have hh := h.2
      rw [hv] at hh
      simpa using hh
    simp [mountField, hv, h1, h2]

theorem createFormFields_noMount {opts : FormOptions}
    (h : ∀ kv ∈ opts.fields, noMountValidation kv.2) :
    createFormFields opts =
      opts.fields.map (fun kv => (kv.1, createFormField kv.1 kv.2)) := by
  unfold createFormFields
  exact mapCongrMem (fun kv hkv => by rw [mountField_eq_createFormField (h kv hkv)])

theorem resetMap_eq (opts : FormOptions) :
    ∀ (sub : List (String × FieldFormOption)) (fs : FormFields),
      fs.map Prod.fst = sub.map Prod.fst →
      (∀ kv ∈ sub, alookup kv.1 opts.fields = some kv.2) →
      (fs.map (fun kv =>
        match alookup kv.1 opts.fields with
        | some o => (kv.1, createFormField kv.1 o)
        | none => kv)) = sub.map (fun kv => (kv.1, createFormField kv.1 kv.2)) := by
  intro sub
  induction sub with
  | nil =>
    intro fs hk _
    cases fs with
    | nil => rfl
    | cons kv ftl => simp at hk
  | cons so rest ih =>
    intro fs hk hmem
    cases fs with
    | nil => simp at hk
    | cons kv ftl =>
      rw [List.map_cons, List.map_cons] at hk
      injection hk with h1 h2
      rw [List.map_cons, List.map_cons]
      congr 1
      · show (match alookup kv.1 opts.fields with
          | some o => (kv.1, createFormField kv.1 o)
          | none => kv) = (so.1, createFormField so.1 so.2)
        have hl := hmem so (List.mem_cons_self so rest)
        rw [h1, hl]
      · exact ih ftl h2 (fun kv2 hkv2 => hmem kv2 (List.mem_cons_of_mem so hkv2))

/-- With distinct keys and no mount-time validation, `reset` rebuilds exactly
the post-construction state from any state with the same key list. -/
theorem reset_eq_createForm {opts : FormOptions}
    (hnd : (opts.fields.map Prod.fst).Nodup)
    (hnm : ∀ kv ∈ opts.fields, noMountValidation kv.2) (fs : FormFields)
    (hk : fs.map Prod.fst = opts.fields.map Prod.fst) :
    reset opts fs = createForm opts := by
  unfold reset createForm
  rw [createFormFields_noMount hnm]
  congr 1
  exact resetMap_eq opts opts.fields fs hk
    (fun kv hkv => alookup_of_nodup hnd hkv)

/-! ### Claim theorems -/

/-- C1: for every field in the form, `validateForm` (the submit transition)
runs validation on that field unconditionally, regardless of the trigger-list
configuration: it validates with the per-trigger `onSubmit` validator when
one is configured and otherwise with generic resolution (the field's
generic validator). -/
theorem claim_C1_submit_validates_every_field
    (opts : FormOptions) (fields : FormFields) (key : String)
    (field : FormField) (o : FieldFormOption)
    (hnd : (fields.map Prod.fst).Nodup)
    (hf : alookup key fields = some field)
    (ho : alookup key opts.fields = some o) :
    alookup key (validateForm opts fields) =
      some (validate opts field (Option.bind o.validation (fun v => v.onSubmit))).1 := by
  rw [alookup_validateForm hnd, hf]
  simp [submitOne, ho]

/-- C1 witness: field `x` has no `validation` key but a top-level required
validator; with value the empty string, submit validation makes
`hasErrors` true. -/
theorem claim_C1_witness :
    alookup "x" (validateForm cfgC1 (createForm cfgC1)) =
      some (validate cfgC1 (createFormField "x" oC1)
        (Option.bind oC1.validation (fun v => v.onSubmit))).1 ∧
    hasErrors (validateForm cfgC1 (createForm cfgC1)) = true :=
  ⟨claim_C1_submit_validates_every_field cfgC1 (createForm cfgC1) "x"
      (createFormField "x" oC1) oC1 (by decide) (by rfl) (by rfl),
   by decide⟩

/-- C2: validator resolution gives a per-trigger validator highest
precedence: when a per-trigger `onChange` validator is configured, the
change transition validates with it alone, regardless of the trigger list
and the generic validator. -/
theorem claim_C2_perTrigger_precedence
    (opts : FormOptions) (fields : FormFields) (key : String)
    (field : FormField) (o : FieldFormOption) (vA : ValidatorFormOption)
    (hf : alookup key fields = some field)
    (ho : alookup key opts.fields = some o)
    (hA : Option.bind o.validation (fun v => v.onChange) = some vA) :
    (handleChangeEvent opts fields key).1 =
      updateVisibility opts (setField fields key (validate opts field (some vA)).1) := by
  simp [handleChangeEvent, hf, ho, hA]

/-- C2 witness: with `onChange` returning message `A` and the generic
validator (trigger list `['onchange']`) returning `B`, a change event leaves
`field.error = 'A'`. -/
theorem claim_C2_witness :
    (handleChangeEvent cfgC2 fldsC2 "f").1 =
      updateVisibility cfgC2
        (setField fldsC2 "f" (validate cfgC2 (createFormField "f" oC2) (some vA2)).1) ∧
    (alookup "f" ((handleChangeEvent cfgC2 fldsC2 "f").1)).map (fun f => f.error) =
      some (some "A") :=
  ⟨claim_C2_perTrigger_precedence cfgC2 fldsC2 "f" (createFormField "f" oC2) oC2 vA2
      rfl rfl rfl,
   by decide⟩

/-- C3 (amended): for configurations with distinct field keys and no
mount-time validation (no `validation.onMount` validator and no `'onmount'`
trigger), `reset()` after any event sequence restores exactly the
post-construction state.  When mount-time validation is configured the claim
fails: construction stores the mount validation result but `reset` does not
re-run it. -/
theorem claim_C3_reset_restores_initial_state
    (opts : FormOptions) (es : List FormEvent)
    (hnd : (opts.fields.map Prod.fst).Nodup)
    (hnm : ∀ kv ∈ opts.fields, noMountValidation kv.2) :
    reset opts (runEvents opts es) = createForm opts :=
  reset_eq_createForm hnd hnm _ (keys_runEvents opts es)

/-- C3 witness: a two-field form (one with a validator) after an input, a
change and a submit resets to its post-construction state. -/
theorem claim_C3_witness :
    reset cfgC3b (runEvents cfgC3b esC3) = createForm cfgC3b :=
  claim_C3_reset_restores_initial_state cfgC3b esC3 (by decide)
    (by intro kv hkv; fin_cases hkv <;> exact ⟨rfl, rfl⟩)

/-- C3 counterexample: with a failing `onMount` validator, the state directly
after construction carries errors, but the state after `reset()` does not,
so reset does not restore the post-construction state. -/
theorem claim_C3_counterexample :
    reset cfgC3 (createForm cfgC3) ≠ createForm cfgC3 := by decide

/-- C4 (amended): the source wraps no `try`/`catch` around validator
execution, so a validator that throws makes `validate` abort before storing
`error`/`errors` and the exception propagates; inside `validateForm`'s
per-field loop it aborts the remaining fields as well. -/
theorem claim_C4_exception_propagates
    (validators : List (String × ThrowingValidator)) (k : String)
    (rest : List String) (fs : FormFields) (field : FormField)
    (v : ThrowingValidator) (e : String)
    (hv : alookup k validators = some v) (hf : alookup k fs = some field)
    (hthrow : v field = Except.error e) :
    validateE field v = Except.error e ∧
    validateFormEAux validators (k :: rest) fs = Except.error e := by
  have h1 : validateE field v = Except.error e := by
    unfold validateE
    rw [hthrow]
  refine ⟨h1, ?_⟩
  simp [validateFormEAux, hv, hf, h1]

/-- C4 witness: a throwing validator on field `a` aborts both `validate` and
the submit loop with the exception. -/
theorem claim_C4_witness :
    validateE (createFormField "a" {}) throwingVal = Except.error "validator exception" ∧
    validateFormEAux valsC4 ["a", "b"] fldsC4 = Except.error "validator exception" :=
  claim_C4_exception_propagates valsC4 "a" ["b"] fldsC4 (createFormField "a" {})
    throwingVal "validator exception" rfl rfl rfl

/-- C4 counterexample: the claim's policy (capture the fault, surface a
synthetic `ValidationError`, continue with the remaining fields) does not
hold: the whole submit validation ends in the propagated exception, field
`a` gets no synthetic error and field `b` is never validated. -/
theorem claim_C4_counterexample :
    validateFormE valsC4 fldsC4 = Except.error "validator exception" := rfl

/-- C5 (amended): the input transition sets `isDirty`, recomputes
`isChanged` as `value !== default`, then validates exactly when a
per-trigger `onInput` validator exists, or the trigger list contains
`'oninput'`, or — fallback — no trigger list is configured and the field
holds a JS-truthy error (non-null and non-empty; an empty-string error does
not trigger the fallback); afterwards it recomputes visibility and invokes
the `onInput` listener. -/
theorem claim_C5_input_transition
    (opts : FormOptions) (fields : FormFields) (key : String)
    (field : FormField) (o : FieldFormOption)
    (hf : alookup key fields = some field)
    (ho : alookup key opts.fields = some o) :
    handleInputEvent opts fields key =
      (updateVisibility opts (setField fields key
        (if (Option.bind o.validation (fun v => v.onInput)).isSome
            || ((Option.bind o.validation (fun v => v.triggers)).getD []).contains
                 ValidationTrigger.oninput
            || (truthyStr field.error
                 && (Option.bind o.validation (fun v => v.triggers)).isNone)
         then (validate opts
                { field with isDirty := true
                             isChanged := valueNeqDefault field.value o.default }
                (Option.bind o.validation (fun v => v.onInput))).1
         else { field with isDirty := true
                           isChanged := valueNeqDefault field.value o.default })),
       if (Option.bind o.listeners (fun l => l.onInput)).isSome
       then [{ fieldName := key, kind := ListenerKind.input }] else []) := by
  cases hOB : Option.bind o.validation (fun v => v.onInput) with
  | some v => simp [handleInputEvent, hf, ho, hOB]
  | none =>
    cases hTr : ((Option.bind o.validation (fun v => v.triggers)).getD []).contains
        ValidationTrigger.oninput with
    | true => simp [handleInputEvent, hf, ho, hOB, hTr]
    | false =>
      cases hF : truthyStr field.error &&
          (Option.bind o.validation (fun v => v.triggers)).isNone with
      | true => simp [handleInputEvent, hf, ho, hOB, hTr, hF]
      | false => simp [handleInputEvent, hf, ho, hOB, hTr, hF]

/-- C5 witness: a field with an `'oninput'` trigger and an `onInput`
listener takes the validating branch and records the listener call. -/
theorem claim_C5_witness :
    handleInputEvent cfgC5 fldsC5 "w" =
      (updateVisibility cfgC5 (setField fldsC5 "w"
        (if (Option.bind oC5.validation (fun v => v.onInput)).isSome
            || ((Option.bind oC5.validation (fun v => v.triggers)).getD []).contains
                 ValidationTrigger.oninput
            || (truthyStr (createFormField "w" oC5).error
                 && (Option.bind oC5.validation (fun v => v.triggers)).isNone)
         then (validate cfgC5
                { createFormField "w" oC5 with
                    isDirty := true
                    isChanged := valueNeqDefault (createFormField "w" oC5).value
                      oC5.default }
                (Option.bind oC5.validation (fun v => v.onInput))).1
         else { createFormField "w" oC5 with
                  isDirty := true
                  isChanged := valueNeqDefault (createFormField "w" oC5).value
                    oC5.default })),
       if (Option.bind oC5.listeners (fun l => l.onInput)).isSome
       then [{ fieldName := "w", kind := ListenerKind.input }] else []) :=
  claim_C5_input_transition cfgC5 fldsC5 "w" (createFormField "w" oC5) oC5 rfl rfl

/-- C5 counterexample: after a change event stores an empty-array validation
result, the field holds the non-null error `''` and has no trigger
configuration, yet the input transition does not re-validate (an empty
string is JS-falsy): the stored error stays `''`, while running the resolved
validator as the claimed fallback requires would yield `'bad'`. -/
theorem claim_C5_counterexample :
    (alookup "x" fsC5x1).map (fun f => f.error) = some (some "") ∧
    (alookup "x" fsC5x2).map (fun f => f.error) = some (some "") ∧
    (validate cfgC5x fC5mid none).1.error = some "bad" :=
  ⟨by decide, by decide, by decide⟩

/-- C6: a field whose configuration has neither a top-level `validator` nor
a `validation` object reports `error = null` and `errors = null` after every
event sequence (including submits and resets). -/
theorem claim_C6_no_validator_no_errors
    (opts : FormOptions) (es : List FormEvent) (key : String) (f : FormField)
    (hnv : ∀ o, (key, o) ∈ opts.fields → o.validator = none ∧ o.validation = none)
    (hf : alookup key (runEvents opts es) = some f) :
    f.error = none ∧ f.errors = none :=
  (goodErr_runEvents opts es).2 (key, f) (alookup_mem hf) hnv

/-- C6 witness: field `p` (no validator) stays error-free through input,
change, focus, blur and submit events, while its sibling `u` has a failing
validator. -/
theorem claim_C6_witness :
    alookup "p" (runEvents cfgC6 esC6) = some fC6 ∧
    fC6.error = none ∧ fC6.errors = none :=
  ⟨by decide,
   claim_C6_no_validator_no_errors cfgC6 esC6 "p" fC6
     (by
       intro o ho
       rcases List.mem_cons.mp ho with h | h2
       · injection h with ha hb
         exact absurd ha (by decide)
       · rcases List.mem_cons.mp h2 with h | h
         · injection h with ha hb
           subst hb
           exact ⟨rfl, rfl⟩
         · exact absurd h (List.not_mem_nil _))
     (by decide)⟩

/-- C7: after every transition and for every configuration, `hasErrors` is
true exactly when the flattened form-level error sequence is non-empty. -/
theorem claim_C7_hasErrors_iff_errors_nonempty
    (opts : FormOptions) (es : List FormEvent) :
    hasErrors (runEvents opts es) = true ↔ formErrors (runEvents opts es) ≠ [] := by
  simp [hasErrors, List.length_pos]

/-- C8: in every state reachable by construction and any event sequence,
every field satisfies `isHidden = !isVisible`, and fields whose
configuration has no visibility predicate are visible; moreover
`updateVisibility` preserves this invariant on any state satisfying it. -/
theorem claim_C8_visibility_invariant :
    (∀ (opts : FormOptions) (es : List FormEvent) (kv : String × FormField),
      kv ∈ runEvents opts es →
      kv.2.isHidden = !kv.2.isVisible ∧
        ((∀ o, (kv.1, o) ∈ opts.fields → o.visible = none) → kv.2.isVisible = true)) ∧
    (∀ (opts : FormOptions) (fs : FormFields),
      (∀ kv ∈ fs, kv.2.isHidden = !kv.2.isVisible ∧
        ((∀ o, (kv.1, o) ∈ opts.fields → o.visible = none) → kv.2.isVisible = true)) →
      ∀ kv ∈ updateVisibility opts fs,
        kv.2.isHidden = !kv.2.isVisible ∧
          ((∀ o, (kv.1, o) ∈ opts.fields → o.visible = none) → kv.2.isVisible = true)) :=
  ⟨fun opts es kv hkv => visOk_runEvents opts es kv hkv,
   fun _ _ h => visOk_updateVisibility h⟩

/-- C8 witness: after an input event changes `a` away from `'x'`, the
cross-field predicate hides `b`, and the invariant holds on that entry. -/
theorem claim_C8_witness :
    kvC8 ∈ runEvents cfgC8 esC8 ∧
    kvC8.2.isHidden = !kvC8.2.isVisible :=
  ⟨by decide, (claim_C8_visibility_invariant.1 cfgC8 esC8 kvC8 (by decide)).1⟩

/-- C9: `validate` mutates only `error` and `errors` of the target field:
value, flags, visibility and name are unchanged, and storing the result back
leaves every other field of the form untouched. -/
theorem claim_C9_validate_frame
    (opts : FormOptions) (field : FormField) (v : Option ValidatorFormOption)
    (fields : FormFields) (k : String) (hne : k ≠ field.name) :
    (validate opts field v).1.value = field.value ∧
    (validate opts field v).1.isDirty = field.isDirty ∧
    (validate opts field v).1.isTouched = field.isTouched ∧
    (validate opts field v).1.isChanged = field.isChanged ∧
    (validate opts field v).1.isVisible = field.isVisible ∧
    (validate opts field v).1.isHidden = field.isHidden ∧
    (validate opts field v).1.name = field.name ∧
    alookup k (setField fields field.name (validate opts field v).1) = alookup k fields :=
  ⟨rfl, rfl, rfl, rfl, rfl, rfl, rfl, alookup_setField_ne hne fields _⟩

/-- C9 witness: validating field `x` with an always-failing validator leaves
its value and flags and the sibling field `y` unchanged. -/
theorem claim_C9_witness :
    (validate cfgC9 (createFormField "x" {}) (some vC9)).1.value =
      (createFormField "x" {}).value ∧
    (validate cfgC9 (createFormField "x" {}) (some vC9)).1.isDirty =
      (createFormField "x" {}).isDirty ∧
    (validate cfgC9 (createFormField "x" {}) (some vC9)).1.isTouched =
      (createFormField "x" {}).isTouched ∧
    (validate cfgC9 (createFormField "x" {}) (some vC9)).1.isChanged =
      (createFormField "x" {}).isChanged ∧
    (validate cfgC9 (createFormField "x" {}) (some vC9)).1.isVisible =
      (createFormField "x" {}).isVisible ∧
    (validate cfgC9 (createFormField "x" {}) (some vC9)).1.isHidden =
      (createFormField "x" {}).isHidden ∧
    (validate cfgC9 (createFormField "x" {}) (some vC9)).1.name =
      (createFormField "x" {}).name ∧
    alookup "y" (setField fldsC9 (createFormField "x" {}).name
        (validate cfgC9 (createFormField "x" {}) (some vC9)).1) =
      alookup "y" fldsC9 :=
  claim_C9_validate_frame cfgC9 (createFormField "x" {}) (some vC9) fldsC9 "y" (by decide)

/-- C10: when the configuration has a `validation` object, fallback
resolution considers only `validation.validator` and never the top-level
`validator`: with `validation` present but `validation.validator` absent, a
no-argument `validate` runs nothing and stores `errors = null`,
`error = null`, wiping any previously stored errors. -/
theorem claim_C10_validation_shadows_top_level
    (opts : FormOptions) (field : FormField) (o : FieldFormOption)
    (val : ValidationFormOption)
    (ho : alookup field.name opts.fields = some o)
    (hval : o.validation = some val) (hv : val.validator = none) :
    (validate opts field none).1 = { field with error := none, errors := none } := by
  unfold validate
  simp only [ho, hval, hv]

/-- C10 witness: field `x` has a top-level validator and a `validation`
object holding only a per-trigger `onChange` validator; a fallback validate
call ignores the top-level validator and wipes the previously stored
errors. -/
theorem claim_C10_witness :
    (validate cfgC10 fC10 none).1 = { fC10 with error := none, errors := none } :=
  claim_C10_validation_shadows_top_level cfgC10 fC10 oC10
    { onChange := some vA10 } rfl rfl rfl

end Formifier
